import Mathlib

/-!
A verification development for the header `src/git_version.h`.  The header is
embedded line by line (`git_version_h`), a small model of the conditional
part of the C preprocessor (`ppStep`, `preprocess`) selects the lines a
translation unit keeps, and `scopeLines` qualifies each kept declaration with
the namespace it is written in.  The properties of the interface are then
stated about the declarations so obtained.
-/

namespace GitVersion

/-! ## Data model: types, declarations and lines of a header -/

/-- A type as a declaration writes it: a named type with its `const`
qualifier (`const bool`), or a pointer with its own `const` qualifier and
the type pointed to (`const char* const`). -/
inductive CType where
  | named (isConst : Bool) (spec : String)
  | pointer (isConst : Bool) (pointee : CType)
  deriving DecidableEq, Repr

/-- One declaration line.  `params` is `none` for the declaration of a data
object and `some ps` for a function declarator with parameter types `ps`. -/
structure Declaration where
  isExtern : Bool
  ty : CType
  name : String
  params : Option (List CType)
  deriving DecidableEq, Repr

/-- One line of a header file: a preprocessor directive, the opening or
closing of a namespace, a declaration, or a line with no content. -/
inductive Line where
  | ifndef_ (m : String)
  | define_ (m : String)
  | ifdef_ (m : String)
  | else_
  | endif_
  | nsOpen (n : String)
  | nsClose
  | decl (d : Declaration)
  | blank
  deriving DecidableEq, Repr

/-- The type written `const char* const`. -/
def constCharPtrConst : CType := .pointer true (.named true "char")

/-- The type written `const bool`. -/
def constBool : CType := .named true "bool"

/-- An `extern` declaration of a data object. -/
def externObject (ty : CType) (name : String) : Line :=
  .decl { isExtern := true, ty := ty, name := name, params := none }

/-- The 22 lines of `src/git_version.h`, in order. -/
def git_version_h : List Line :=
  [ .ifndef_ "GIT_VERSION_H",                       -- #ifndef GIT_VERSION_H
    .define_ "GIT_VERSION_H",                       -- #define GIT_VERSION_H
    .blank,
    .ifdef_ "__cplusplus",                          -- #ifdef __cplusplus
    .nsOpen "Git_version",                         -- namespace Git_version {
    externObject constCharPtrConst "branch",       -- extern const char* const branch;
    externObject constCharPtrConst "sha1",         -- extern const char* const sha1;
    externObject constCharPtrConst "shortSha1",    -- extern const char* const shortSha1;
    externObject constCharPtrConst "tags",         -- extern const char* const tags;
    externObject constCharPtrConst "config",       -- extern const char* const config;
    externObject constBool "dirty",                -- extern const bool        dirty;
    .nsClose,                                      -- }
    .else_,                                        -- #else
    externObject constCharPtrConst "Gv_branch",    -- extern const char* const Gv_branch;
    externObject constCharPtrConst "Gv_sha1",      -- extern const char* const Gv_sha1;
    externObject constCharPtrConst "Gv_shortSha1", -- extern const char* const Gv_shortSha1;
    externObject constCharPtrConst "Gv_tags",      -- extern const char* const Gv_tags;
    externObject constCharPtrConst "Gv_config",    -- extern const char* const Gv_config;
    externObject constBool "Gv_dirty",             -- extern const bool        Gv_dirty;
    .endif_,                                        -- #endif
    .blank,
    .endif_ ]                                       -- #endif // GIT_VERSION_H

/-! ## Conditional inclusion -/

/-- The state of the preprocessor: the macros defined so far, the stack
of open conditionals (innermost first, each entry telling whether the group
being read was selected by its own condition), and the lines kept. -/
structure PPState where
  macros : List String
  conds : List Bool
  out : List Line
  deriving DecidableEq, Repr

/-- A line is kept when every open conditional selects the group it is in. -/
def PPState.active (s : PPState) : Bool := s.conds.all id

/-- Process one line.  `#else` and `#endif` without an open conditional are
errors. -/
def ppStep (s : PPState) : Line → Option PPState
  | .ifdef_ m => some { s with conds := decide (m ∈ s.macros) :: s.conds }
  | .ifndef_ m => some { s with conds := (!decide (m ∈ s.macros)) :: s.conds }
  | .else_ =>
    match s.conds with
    | [] => none
    | c :: cs => some { s with conds := (!c) :: cs }
  | .endif_ =>
    match s.conds with
    | [] => none
    | _ :: cs => some { s with conds := cs }
  | .define_ m => some (if s.active then { s with macros := m :: s.macros } else s)
  | .blank => some s
  | l => some (if s.active then { s with out := s.out ++ [l] } else s)

/-- Process the lines of a file in order. -/
def ppRun (s : PPState) : List Line → Option PPState
  | [] => some s
  | l :: ls => (ppStep s l).bind (fun s1 => ppRun s1 ls)

/-- Preprocess a whole translation unit, starting from the predefined
macros.  A conditional left open at the end of the unit is an error. -/
def preprocess (predefined : List String) (unit : List Line) : Option (List Line) :=
  (ppRun { macros := predefined, conds := [], out := [] } unit).bind
    (fun s => if s.conds = [] then some s.out else none)

/-! ## Namespaces -/

/-- A declared entity: the declaration and the namespaces enclosing it,
outermost first. -/
structure Entity where
  scope : List String
  decl : Declaration
  deriving DecidableEq, Repr

/-- Qualify each declaration of a preprocessed unit with its namespaces.  A
closing brace with no namespace open, or a namespace left open, is an error;
so is a directive that survived preprocessing. -/
def scopeLines : List String → List Line → Option (List Entity)
  | [], [] => some []
  | _ :: _, [] => none
  | sc, .nsOpen n :: ls => scopeLines (sc ++ [n]) ls
  | sc, .nsClose :: ls => if sc = [] then none else scopeLines sc.dropLast ls
  | sc, .decl d :: ls => (scopeLines sc ls).map (fun es => { scope := sc, decl := d } :: es)
  | sc, .blank :: ls => scopeLines sc ls
  | _, _ :: _ => none

/-- The two language modes the header distinguishes. -/
inductive Mode where
  | cpp
  | c
  deriving DecidableEq, Repr

/-- The macros the compiler predefines that the header tests:
`__cplusplus` is defined exactly when compiling C++. -/
def Mode.predefined : Mode → List String
  | .cpp => ["__cplusplus"]
  | .c => []

/-- The entities declared by a translation unit made of `n` inclusions of
`git_version.h`, one after the other. -/
def includeTimes (predefined : List String) (n : Nat) : Option (List Entity) :=
  (preprocess predefined (List.replicate n git_version_h).flatten).bind (scopeLines [])

/-- The interface a translation unit in mode `m` sees after including the
header. -/
def interface (m : Mode) : Option (List Entity) :=
  includeTimes m.predefined 1

/-! ## Reading the interface: names, kinds of field, values -/

/-- The name a program writes to refer to an entity: the enclosing
namespaces and the declared name, joined by `::`. -/
def Entity.qualifiedName (e : Entity) : String :=
  String.intercalate "::" (e.scope ++ [e.decl.name])

/-- Remove the prefix `Gv_` from a name, when it has it. -/
def stripGv (n : String) : Option String :=
  match n.data with
  | 'G' :: 'v' :: '_' :: rest => some (String.mk rest)
  | _ => none

/-- The field of the record an entity stands for: the declared name inside
`namespace Git_version`, the name after `Gv_` at global scope. -/
def Entity.fieldName (e : Entity) : Option String :=
  if e.scope = ["Git_version"] then some e.decl.name
  else if e.scope = [] then stripGv e.decl.name
  else none

/-- Const at every level: the named type is const, and so is every pointer
on the way to it. -/
def CType.constEverywhere : CType → Bool
  | .named k _ => k
  | .pointer k t => k && t.constEverywhere

/-- The values an object can hold: a boolean, the null pointer, a pointer to
the first character of a string, or an integer. -/
inductive Value where
  | boolean (b : Bool)
  | null
  | text (s : String)
  | integer (n : Int)
  deriving DecidableEq, Repr

/-- The range every implementation gives an integer type, by its keyword
(the least limits the C standard requires). -/
def integerRange (n : String) : Option (Int × Int) :=
  if n = "char" then some (0, 127)
  else if n = "short" ∨ n = "int" ∨ n = "signed" then some (-32767, 32767)
  else if n = "unsigned" then some (0, 65535)
  else if n = "long" then some (-2147483647, 2147483647)
  else none

/-- The values a type admits, for a type written with built-in type names
only.  The boolean type, whose keyword is `bool` in C++ and C23 and `_Bool`
in C from C99 on, holds `true` or `false`; an integer type holds the integers
of its range; a pointer to `char` holds the null pointer or points to a
string.  A type name that is no keyword of the dialect in use has no meaning
of its own: `resolveType` replaces it first by what the including unit
bound it to. -/
def admits : CType → Value → Bool
  | .named _ n, .boolean _ => decide (n = "bool" ∨ n = "_Bool")
  | .named _ n, .integer i =>
    match integerRange n with
    | some (lo, hi) => decide (lo ≤ i ∧ i ≤ hi)
    | none => false
  | .pointer _ (.named _ n), .null => decide (n = "char")
  | .pointer _ (.named _ n), .text _ => decide (n = "char")
  | _, _ => false

/-- The entity of the interface, in mode `m`, that stands for field `f`. -/
def findField (m : Mode) (f : String) : Option Entity :=
  (interface m).bind (fun es => es.find? (fun e => e.fieldName = some f))

/-! ## The definitions behind the `extern` declarations -/

/-- The record of the specification's data model. -/
structure BuildIdentity where
  branch : String
  commitId : String
  shortCommitId : String
  tags : String
  buildConfig : String
  isDirty : Bool
  deriving DecidableEq, Repr

/-- Modelled from the spec: the build-time generator, whose output (the file
defining the `extern` objects) is not among the sources.  It "materializes"
the six values "into whatever form this component reads at compile or link
time": one definition per declared symbol, for the namespaced names and for
the prefixed names ("two calling conventions from one build"), each bound to
the value of its field. -/
def generate (r : BuildIdentity) : List (String × Value) :=
  [ ("Git_version::branch", .text r.branch),
    ("Git_version::sha1", .text r.commitId),
    ("Git_version::shortSha1", .text r.shortCommitId),
    ("Git_version::tags", .text r.tags),
    ("Git_version::config", .text r.buildConfig),
    ("Git_version::dirty", .boolean r.isDirty),
    ("Gv_branch", .text r.branch),
    ("Gv_sha1", .text r.commitId),
    ("Gv_shortSha1", .text r.shortCommitId),
    ("Gv_tags", .text r.tags),
    ("Gv_config", .text r.buildConfig),
    ("Gv_dirty", .boolean r.isDirty) ]

/-- Read field `f` through the interface of mode `m`: the header gives the
symbol the field is declared as, the linked definitions give its value.
The result is `none` when the header declares no such field or no
definition has that symbol. -/
def readField (m : Mode) (defs : List (String × Value)) (f : String) : Option Value :=
  (findField m f).bind (fun e => defs.lookup e.qualifiedName)

/-! ## Accesses a client can make -/

/-- The `const` qualifier of the object itself. -/
def CType.topConst : CType → Bool
  | .named k _ => k
  | .pointer k _ => k

/-- The expressions by which a client touches an object `n`: using its
value, assigning to it (`n = v`), assigning to a character it points to
(`n[i] = ch`). -/
inductive Access where
  | read (n : String)
  | assign (n : String) (v : Value)
  | assignChar (n : String) (i : Nat) (ch : Char)
  deriving DecidableEq, Repr

/-- What the compiler accepts against the declarations `es`: the name must
be declared; the left side of an assignment must not be const; assigning
through a pointer needs a pointer to a non-const type. -/
def permitted (es : List Entity) : Access → Bool
  | .read n => es.any (fun e => e.qualifiedName = n)
  | .assign n _ => es.any (fun e => e.qualifiedName = n && !e.decl.ty.topConst)
  | .assignChar n _ _ =>
    es.any (fun e => e.qualifiedName = n &&
      match e.decl.ty with
      | .pointer _ t => !t.topConst
      | .named _ _ => false)

/-- Replace character `i` of a string. -/
def setChar (s : String) (i : Nat) (ch : Char) : String :=
  String.mk (s.data.set i ch)

/-- Execute one access on the objects' values: the new values, and for a
read the name read and the value seen. -/
def execAccess (st : List (String × Value)) :
    Access → List (String × Value) × Option (String × Option Value)
  | .read n => (st, some (n, st.lookup n))
  | .assign n v => ((n, v) :: st, none)
  | .assignChar n i ch =>
    match st.lookup n with
    | some (.text s) => ((n, .text (setChar s i ch)) :: st, none)
    | _ => (st, none)

/-- Run a sequence of accesses; the result lists what each read saw, in
order of execution. -/
def runAccesses : List (String × Value) → List Access → List (String × Option Value)
  | _, [] => []
  | st, a :: rest =>
    (execAccess st a).2.toList ++ runAccesses (execAccess st a).1 rest

/-! ## Language dialects and the type names they provide -/

/-- The language a translation unit is compiled as. -/
inductive Dialect where
  | cxx
  | c90
  | c99
  | c11
  | c17
  | c23
  deriving DecidableEq, Repr

/-- The mode of the header a dialect selects. -/
def Dialect.mode : Dialect → Mode
  | .cxx => .cpp
  | _ => .c

/-- The type-specifier keywords of each dialect.  `bool` is a keyword of C++
and of C from C23 on; in C99, C11 and C17 the built-in boolean type is
spelled `_Bool`, and `bool` is a macro that `<stdbool.h>` defines; C90 has
no boolean type. -/
def Dialect.builtinTypeNames : Dialect → List String
  | .cxx => ["void", "char", "short", "int", "long", "float", "double", "signed",
             "unsigned", "wchar_t", "bool"]
  | .c23 => ["void", "char", "short", "int", "long", "float", "double", "signed",
             "unsigned", "_Bool", "bool"]
  | .c90 => ["void", "char", "short", "int", "long", "float", "double", "signed",
             "unsigned"]
  | _ => ["void", "char", "short", "int", "long", "float", "double", "signed",
          "unsigned", "_Bool"]

/-- The type names a type is written with. -/
def CType.typeNames : CType → List String
  | .named _ n => [n]
  | .pointer _ t => t.typeNames

/-- The type names the header uses, in dialect `d`, that the dialect does not
provide.  The header includes no file and defines no type, so a name the
dialect lacks is undeclared when the header is the first thing included. -/
def undeclaredTypeNames (d : Dialect) : Option (List String) :=
  (interface d.mode).map (fun es =>
    (es.map (fun e => e.decl.ty.typeNames)).flatten.filter
      (fun n => !decide (n ∈ d.builtinTypeNames)))

/-- The context in which a translation unit includes the header: the dialect
it is compiled as, and the type names it has bound before the inclusion (by
`typedef` or `#define`), each with the type, written with built-in names, it
stands for.  `<stdbool.h>` binds `bool` to `_Bool`. -/
structure UnitContext where
  dialect : Dialect
  bound : List (String × CType)
  deriving DecidableEq, Repr

/-- Add a `const` qualifier to the object type. -/
def CType.addConst (k : Bool) : CType → CType
  | .named c n => .named (c || k) n
  | .pointer c t => .pointer (c || k) t

/-- The type a declared type stands for in a unit: a keyword of the dialect
stands for itself, another name for what the unit bound it to, with the
qualifier of the declaration added; a name that is neither is undeclared and
the declaration does not compile (`none`). -/
def resolveType (u : UnitContext) : CType → Option CType
  | .named k n =>
    if n ∈ u.dialect.builtinTypeNames then some (.named k n)
    else
      match u.bound.lookup n with
      | some t =>
        if t.typeNames.all (fun x => decide (x ∈ u.dialect.builtinTypeNames))
        then some (t.addConst k) else none
      | none => none
  | .pointer k t => (resolveType u t).map (CType.pointer k)

/-- The type the dirty flag has in a unit that includes the header. -/
def dirtyType (u : UnitContext) : Option CType :=
  (findField u.dialect.mode "dirty").bind (fun e => resolveType u e.decl.ty)

/-- The correspondence of the two namings: the entity `Git_version::x` of
the C++ form is the entity `Gv_x`, at global scope, of the C form. -/
def toCForm (e : Entity) : Entity :=
  { scope := [], decl := { e.decl with name := "Gv_" ++ e.decl.name } }

/-- The names of the five text fields. -/
def textFieldNames : List String := ["branch", "sha1", "shortSha1", "tags", "config"]

/-! ## Lemmas on the preprocessor -/

theorem ppRun_append (s : PPState) (a b : List Line) :
    ppRun s (a ++ b) = (ppRun s a).bind (fun s1 => ppRun s1 b) := by
  induction a generalizing s with
  | nil => simp [ppRun]
  | cons l ls ih =>
    simp only [List.cons_append, ppRun]
    cases h : ppStep s l with
    | none => simp
    | some s1 => simp [ih]

/-- Once `GIT_VERSION_H` is defined, reading the header changes nothing:
no macro is defined, no line is kept, the conditionals are balanced. -/
theorem ppRun_header_guarded (s : PPState) (h : "GIT_VERSION_H" ∈ s.macros) :
    ppRun s git_version_h = some s := by
  obtain ⟨ms, cs, out⟩ := s
  simp only at h
  simp only [git_version_h, ppRun, ppStep, PPState.active, externObject, Option.bind,
    h, decide_True, Bool.not_true, List.all_cons, id, Bool.false_and, Bool.and_false,
    Bool.not_false, Bool.true_and, if_false, Bool.false_eq_true]

/-- Reading the header outside any conditional, with `GIT_VERSION_H` not yet
defined, defines it and leaves no conditional open. -/
theorem ppRun_header_first (ms : List String) (out : List Line)
    (h : "GIT_VERSION_H" ∉ ms) :
    ∃ o, ppRun { macros := ms, conds := [], out := out } git_version_h
      = some { macros := "GIT_VERSION_H" :: ms, conds := [], out := o } := by
  have hne : ¬ ("__cplusplus" = "GIT_VERSION_H") := by decide
  by_cases hc : "__cplusplus" ∈ ms
  · have hm : "__cplusplus" ∈ "GIT_VERSION_H" :: ms := List.mem_cons_of_mem _ hc
    refine ⟨?o, ?_⟩
    case o =>
      exact ((ppRun { macros := ms, conds := [], out := out } git_version_h).map
        PPState.out).getD []
    simp only [git_version_h, ppRun, ppStep, PPState.active, externObject, Option.bind,
      h, hm, decide_True, decide_False, Bool.not_true, Bool.not_false, List.all_cons,
      List.all_nil, id, Bool.and_true, Bool.true_and, Bool.false_and, if_true, if_false,
      Bool.false_eq_true, Option.map, Option.getD]
  · have hm : "__cplusplus" ∉ "GIT_VERSION_H" :: ms := by
      intro hmem
      rcases List.mem_cons.mp hmem with h1 | h1
      · exact hne h1
      · exact hc h1
    refine ⟨?o, ?_⟩
    case o =>
      exact ((ppRun { macros := ms, conds := [], out := out } git_version_h).map
        PPState.out).getD []
    simp only [git_version_h, ppRun, ppStep, PPState.active, externObject, Option.bind,
      h, hm, decide_True, decide_False, Bool.not_true, Bool.not_false, List.all_cons,
      List.all_nil, id, Bool.and_true, Bool.true_and, Bool.false_and, if_true, if_false,
      Bool.false_eq_true, Option.map, Option.getD]

theorem ppRun_replicate_guarded (s : PPState) (h : "GIT_VERSION_H" ∈ s.macros) (n : Nat) :
    ppRun s (List.replicate n git_version_h).flatten = some s := by
  induction n with
  | zero => simp [ppRun]
  | succ k ih =>
    rw [List.replicate_succ, List.flatten_cons, ppRun_append, ppRun_header_guarded s h]
    simpa using ih

/-- Reading the header once more after the first time changes nothing. -/
theorem ppRun_replicate_succ (ms : List String) (n : Nat) :
    ppRun { macros := ms, conds := [], out := [] } (List.replicate (n + 1) git_version_h).flatten
      = ppRun { macros := ms, conds := [], out := [] } git_version_h := by
  rw [List.replicate_succ, List.flatten_cons, ppRun_append]
  by_cases h : "GIT_VERSION_H" ∈ ms
  · rw [ppRun_header_guarded _ h]
    simpa using ppRun_replicate_guarded _ h n
  · obtain ⟨o, ho⟩ := ppRun_header_first ms [] h
    rw [ho]
    simpa using ppRun_replicate_guarded
      { macros := "GIT_VERSION_H" :: ms, conds := [], out := o } (by simp) n

/-! ## Lemmas on constness and on accesses -/

theorem topConst_of_constEverywhere (t : CType) (h : t.constEverywhere = true) :
    t.topConst = true := by
  cases t with
  | named k n => simpa [CType.constEverywhere, CType.topConst] using h
  | pointer k t =>
    simp only [CType.constEverywhere, Bool.and_eq_true] at h
    simpa [CType.topConst] using h.1

/-- Against declarations that are const at every level, the only accesses
the compiler accepts are reads. -/
theorem permitted_is_read (es : List Entity)
    (hc : ∀ e ∈ es, e.decl.ty.constEverywhere = true) (a : Access)
    (hp : permitted es a = true) : ∃ n, a = Access.read n := by
  cases a with
  | read n => exact ⟨n, rfl⟩
  | assign n v =>
    simp only [permitted, List.any_eq_true, Bool.and_eq_true, Bool.not_eq_true'] at hp
    obtain ⟨e, he, -, ht⟩ := hp
    have := topConst_of_constEverywhere _ (hc e he)
    rw [ht] at this
    cases this
  | assignChar n i ch =>
    simp only [permitted, List.any_eq_true, Bool.and_eq_true] at hp
    obtain ⟨e, he, -, ht⟩ := hp
    have hce := hc e he
    cases hty : e.decl.ty with
    | named k nm => rw [hty] at ht; cases ht
    | pointer k t =>
      rw [hty] at ht hce
      simp only [CType.constEverywhere, Bool.and_eq_true] at hce
      have := topConst_of_constEverywhere _ hce.2
      simp only [Bool.not_eq_true'] at ht
      rw [ht] at this
      cases this

/-- A program made of reads sees, at every read, the value the object had
at the start. -/
theorem runAccesses_reads (st : List (String × Value)) (prog : List Access)
    (h : ∀ a ∈ prog, ∃ n, a = Access.read n) (n : String) (v : Option Value)
    (hv : (n, v) ∈ runAccesses st prog) : v = st.lookup n := by
  induction prog with
  | nil => simp [runAccesses] at hv
  | cons a rest ih =>
    obtain ⟨k, rfl⟩ := h a (List.mem_cons_self _ _)
    simp only [runAccesses, execAccess, Option.toList, List.singleton_append,
      List.mem_cons, Prod.mk.injEq] at hv
    rcases hv with ⟨rfl, rfl⟩ | hv
    · rfl
    · exact ih (fun b hb => h b (List.mem_cons_of_mem _ hb)) hv

theorem interface_types (m : Mode) :
    (interface m).map (List.map (fun e => e.decl.ty))
      = some [constCharPtrConst, constCharPtrConst, constCharPtrConst, constCharPtrConst,
              constCharPtrConst, constBool] := by
  cases m <;> decide

theorem admits_constCharPtrConst (v : Value) :
    admits constCharPtrConst v = true ↔ (v = Value.null ∨ ∃ s, v = Value.text s) := by
  cases v with
  | boolean b => simp [admits, constCharPtrConst]
  | null => simp [admits, constCharPtrConst]
  | text s => simp [admits, constCharPtrConst]
  | integer n => simp [admits, constCharPtrConst]

theorem admits_constBool (v : Value) :
    admits constBool v = true ↔ (v = Value.boolean true ∨ v = Value.boolean false) := by
  cases v with
  | boolean b => cases b <;> simp [admits, constBool]
  | null => simp [admits, constBool]
  | text s => simp [admits, constBool]
  | integer n => simp [admits, constBool, integerRange]

theorem findField_text_type (m : Mode) (f : String) (hf : f ∈ textFieldNames) :
    (findField m f).map (fun e => e.decl.ty) = some constCharPtrConst := by
  simp only [textFieldNames, List.mem_cons, List.mem_singleton, List.not_mem_nil,
    or_false] at hf
  rcases hf with rfl | rfl | rfl | rfl | rfl <;> cases m <;> decide

theorem typeNames_addConst (k : Bool) (t : CType) :
    (t.addConst k).typeNames = t.typeNames := by
  cases t <;> rfl

/-- A resolved type is written with keywords of the dialect only: in C90 to
C17 the name `bool` never remains. -/
theorem resolveType_builtin (u : UnitContext) (t r : CType)
    (h : resolveType u t = some r) :
    ∀ n ∈ r.typeNames, n ∈ u.dialect.builtinTypeNames := by
  induction t generalizing r with
  | named k n =>
    simp only [resolveType] at h
    split at h
    · rename_i hb
      cases h
      intro x hx
      simp only [CType.typeNames, List.mem_singleton] at hx
      rw [hx]; exact hb
    · split at h
      · rename_i t ht
        split at h
        · rename_i hall
          cases h
          rw [typeNames_addConst]
          intro x hx
          simpa using List.all_eq_true.mp hall x hx
        · cases h
      · cases h
  | pointer k t ih =>
    simp only [resolveType, Option.map_eq_some'] at h
    obtain ⟨r1, hr1, rfl⟩ := h
    exact ih r1 hr1

/-- Where `bool` is a keyword of the dialect (C++ and C23), whatever the unit
bound before, the dirty flag has the type `const bool`, whose values are
exactly `true` and `false`. -/
theorem dirty_two_valued_of_keyword (u : UnitContext)
    (h : "bool" ∈ u.dialect.builtinTypeNames) (v : Value) :
    dirtyType u = some constBool
    ∧ (admits constBool v = true ↔ (v = Value.boolean true ∨ v = Value.boolean false)) := by
  refine ⟨?_, admits_constBool v⟩
  obtain ⟨d, b⟩ := u
  have hf : (findField d.mode "dirty").map (fun e => e.decl.ty) = some constBool := by
    cases d <;> decide
  simp only [dirtyType]
  cases hfe : findField d.mode "dirty" with
  | none => rw [hfe] at hf; cases hf
  | some e =>
    rw [hfe] at hf
    simp only [Option.map_some', Option.some.injEq] at hf
    simp only [Option.bind, hf, constBool, resolveType]
    simp only at h
    rw [if_pos h]

/-! ## The claims -/

/-- C1: for every six values the generator supplies, and in either naming,
reading a field through the interface returns the value supplied for that
field: `branch` the branch, `sha1` the commit id, `shortSha1` the short
commit id, `tags` the tags, `config` the build configuration, `dirty` the
dirty flag. -/
theorem fields_read_back (r : BuildIdentity) (m : Mode) :
    readField m (generate r) "branch" = some (.text r.branch)
    ∧ readField m (generate r) "sha1" = some (.text r.commitId)
    ∧ readField m (generate r) "shortSha1" = some (.text r.shortCommitId)
    ∧ readField m (generate r) "tags" = some (.text r.tags)
    ∧ readField m (generate r) "config" = some (.text r.buildConfig)
    ∧ readField m (generate r) "dirty" = some (.boolean r.isDirty) := by
  cases m <;> exact ⟨rfl, rfl, rfl, rfl, rfl, rfl⟩

/-- The first end-to-end scenario of the specification, in both namings. -/
theorem scenario_release (m : Mode) :
    ["branch", "sha1", "shortSha1", "tags", "config", "dirty"].map
        (readField m (generate
          { branch := "main", commitId := "abc123def456", shortCommitId := "abc123d",
            tags := "v1.2.0", buildConfig := "release", isDirty := false }))
      = [some (.text "main"), some (.text "abc123def456"), some (.text "abc123d"),
         some (.text "v1.2.0"), some (.text "release"), some (.boolean false)] := by
  cases m <;> decide

/-- The second end-to-end scenario of the specification, in both namings. -/
theorem scenario_dirty_empty (m : Mode) :
    ["branch", "sha1", "shortSha1", "tags", "config", "dirty"].map
        (readField m (generate
          { branch := "", commitId := "", shortCommitId := "",
            tags := "", buildConfig := "", isDirty := true }))
      = [some (.text ""), some (.text ""), some (.text ""),
         some (.text ""), some (.text ""), some (.boolean true)] := by
  cases m <;> decide

/-- C3: the six declarations are const at every level (a const pointer to
const `char` for the five texts, a const `bool` for dirty); the only accesses
the compiler accepts on them are reads; and in any program of accepted
accesses every read of an object returns the value the object had at the
start, so any two reads of it agree. -/
theorem record_immutable (m : Mode) (es : List Entity) (st : List (String × Value))
    (prog : List Access) (hI : interface m = some es)
    (hP : ∀ a ∈ prog, permitted es a = true) :
    es.map (fun e => e.decl.ty)
        = [constCharPtrConst, constCharPtrConst, constCharPtrConst, constCharPtrConst,
           constCharPtrConst, constBool]
    ∧ (∀ e ∈ es, e.decl.ty.constEverywhere = true)
    ∧ (∀ a, permitted es a = true → ∃ n, a = Access.read n)
    ∧ (∀ n v, (n, v) ∈ runAccesses st prog → v = st.lookup n)
    ∧ (∀ n v w, (n, v) ∈ runAccesses st prog → (n, w) ∈ runAccesses st prog → v = w) := by
  have hty := interface_types m
  rw [hI] at hty
  simp only [Option.map_some', Option.some.injEq] at hty
  have hconst : ∀ e ∈ es, e.decl.ty.constEverywhere = true := by
    intro e he
    have hmem : e.decl.ty ∈ es.map (fun e => e.decl.ty) := List.mem_map_of_mem _ he
    rw [hty] at hmem
    simp only [List.mem_cons, List.mem_singleton, List.not_mem_nil, or_false, or_self] at hmem
    rcases hmem with h | h | h | h | h | h <;> rw [h] <;> rfl
  have hread : ∀ a ∈ prog, ∃ n, a = Access.read n :=
    fun a ha => permitted_is_read es hconst a (hP a ha)
  refine ⟨hty, hconst, permitted_is_read es hconst, runAccesses_reads st prog hread, ?_⟩
  intro n v w hv hw
  rw [runAccesses_reads st prog hread n v hv, runAccesses_reads st prog hread n w hw]

/-- A client that reads `Git_version::branch`, `Git_version::dirty` and
`Git_version::branch` again is accepted, and sees "main" both times. -/
theorem record_immutable_witness :
    interface .cpp = some ((interface .cpp).getD [])
    ∧ (∀ a ∈ [Access.read "Git_version::branch", Access.read "Git_version::dirty",
               Access.read "Git_version::branch"],
          permitted ((interface .cpp).getD []) a = true)
    ∧ runAccesses
        (generate { branch := "main", commitId := "abc123def456", shortCommitId := "abc123d",
                    tags := "v1.2.0", buildConfig := "release", isDirty := false })
        [Access.read "Git_version::branch", Access.read "Git_version::dirty",
         Access.read "Git_version::branch"]
      = [("Git_version::branch", some (.text "main")),
         ("Git_version::dirty", some (.boolean false)),
         ("Git_version::branch", some (.text "main"))]
    ∧ (∀ n v w,
        (n, v) ∈ runAccesses
          (generate { branch := "main", commitId := "abc123def456", shortCommitId := "abc123d",
                      tags := "v1.2.0", buildConfig := "release", isDirty := false })
          [Access.read "Git_version::branch", Access.read "Git_version::dirty",
           Access.read "Git_version::branch"] →
        (n, w) ∈ runAccesses
          (generate { branch := "main", commitId := "abc123def456", shortCommitId := "abc123d",
                      tags := "v1.2.0", buildConfig := "release", isDirty := false })
          [Access.read "Git_version::branch", Access.read "Git_version::dirty",
           Access.read "Git_version::branch"] →
        v = w) :=
  ⟨by decide, by decide, by decide,
   (record_immutable .cpp ((interface .cpp).getD []) _ _ (by decide) (by decide)).2.2.2.2⟩

/-- C4, as stated, fails: the type `const char* const` of each of the five
text fields, in both namings, admits the null pointer, a value that is no
string. -/
theorem text_type_admits_null :
    textFieldNames.map
        (fun f => (findField .cpp f).map (fun e => (e.decl.ty, admits e.decl.ty Value.null)))
      = List.replicate 5 (some (constCharPtrConst, true))
    ∧ textFieldNames.map
        (fun f => (findField .c f).map (fun e => (e.decl.ty, admits e.decl.ty Value.null)))
      = List.replicate 5 (some (constCharPtrConst, true)) := by
  constructor <;> decide

/-- C4, amended: each of the five text fields is declared, in both namings,
with the type `const char* const`, and the values this type admits are
exactly the null pointer and the pointers to a string (possibly the empty
string): a value of a text field is a defined string or null, nothing
else. -/
theorem text_field_string_or_null (m : Mode) (f : String) (v : Value)
    (hf : f ∈ textFieldNames) :
    ∃ e, findField m f = some e ∧ e.decl.ty = constCharPtrConst
      ∧ (admits e.decl.ty v = true ↔ (v = Value.null ∨ ∃ s, v = Value.text s)) := by
  have h := findField_text_type m f hf
  cases hfe : findField m f with
  | none => rw [hfe] at h; cases h
  | some e =>
    rw [hfe] at h
    simp only [Option.map_some', Option.some.injEq] at h
    exact ⟨e, rfl, h, by rw [h]; exact admits_constCharPtrConst v⟩

/-- In C, the field `tags` is `Gv_tags`, of type `const char* const`, and
this type admits the empty string. -/
theorem text_field_string_or_null_witness :
    "tags" ∈ textFieldNames
    ∧ ∃ e, findField .c "tags" = some e ∧ e.decl.ty = constCharPtrConst
      ∧ (admits e.decl.ty (Value.text "") = true
          ↔ (Value.text "" = Value.null ∨ ∃ s, Value.text "" = Value.text s)) :=
  ⟨by decide, text_field_string_or_null .c "tags" (Value.text "") (by decide)⟩

/-- C5 fails in C before C23.  The C branch declares `Gv_dirty` with the
name `bool`, which the header does not bind and C90 to C17 do not provide.
A unit that binds it by `typedef int bool;` before the inclusion gets
`Gv_dirty` of type `const int`, an integer type that admits 2, a third state;
a unit that binds nothing does not compile.  Where `bool` is a keyword (C++,
C23), or bound to `_Bool` by `<stdbool.h>`, the type is the boolean type. -/
theorem dirty_third_state_in_c :
    (findField .c "dirty").map (fun e => (e.qualifiedName, e.decl.ty))
        = some ("Gv_dirty", constBool)
    ∧ dirtyType { dialect := .c90, bound := [("bool", .named false "int")] }
        = some (.named true "int")
    ∧ dirtyType { dialect := .c17, bound := [("bool", .named false "int")] }
        = some (.named true "int")
    ∧ admits (.named true "int") (Value.integer 2) = true
    ∧ dirtyType { dialect := .c17, bound := [] } = none
    ∧ dirtyType { dialect := .c17, bound := [("bool", .named false "_Bool")] }
        = some (.named true "_Bool")
    ∧ dirtyType { dialect := .c23, bound := [] } = some constBool
    ∧ dirtyType { dialect := .cxx, bound := [] } = some constBool := by
  decide

/-- C6: the C form is the C++ form with each `Git_version::x` renamed to
`Gv_x` at global scope, declaration by declaration and in the same order;
the names of each form are pairwise distinct, so the renaming is a bijection
between the two sets of declarations; corresponding declarations stand for
the same field and have the same type, `const char* const` for the five
texts and `const bool` for dirty. -/
theorem cpp_and_c_forms_correspond :
    ∃ cpp c, interface .cpp = some cpp ∧ interface .c = some c
      ∧ c = cpp.map toCForm
      ∧ cpp.map Entity.qualifiedName
          = ["Git_version::branch", "Git_version::sha1", "Git_version::shortSha1",
             "Git_version::tags", "Git_version::config", "Git_version::dirty"]
      ∧ c.map Entity.qualifiedName
          = ["Gv_branch", "Gv_sha1", "Gv_shortSha1", "Gv_tags", "Gv_config", "Gv_dirty"]
      ∧ (cpp.map Entity.qualifiedName).Nodup
      ∧ (c.map Entity.qualifiedName).Nodup
      ∧ (∀ e ∈ cpp, e.scope = ["Git_version"])
      ∧ c.map Entity.fieldName = cpp.map Entity.fieldName
      ∧ c.map (fun e => e.decl.ty) = cpp.map (fun e => e.decl.ty)
      ∧ cpp.map (fun e => e.decl.ty)
          = [constCharPtrConst, constCharPtrConst, constCharPtrConst, constCharPtrConst,
             constCharPtrConst, constBool] :=
  ⟨(interface .cpp).getD [], (interface .c).getD [], by decide, by decide, by decide,
    by decide, by decide, by decide, by decide, by decide, by decide, by decide, by decide⟩

/-- C8 fails in C before C23: compiled as C90, C99, C11 or C17 with nothing
included before it, the header uses the type name `bool`, which those
dialects do not provide; compiled as C++ or as C23 every type name it uses
is built in. -/
theorem c_branch_bool_undeclared :
    undeclaredTypeNames .c90 = some ["bool"]
    ∧ undeclaredTypeNames .c99 = some ["bool"]
    ∧ undeclaredTypeNames .c11 = some ["bool"]
    ∧ undeclaredTypeNames .c17 = some ["bool"]
    ∧ undeclaredTypeNames .c23 = some []
    ∧ undeclaredTypeNames .cxx = some [] := by
  decide

/-- C9: a translation unit that includes the header `n + 1` times declares
exactly what one that includes it once declares, whatever macros are
predefined; in particular, in each language mode, it declares the
interface of that mode. -/
theorem include_idempotent (predefined : List String) (n : Nat) :
    includeTimes predefined (n + 1) = includeTimes predefined 1
    ∧ ∀ m : Mode, includeTimes m.predefined (n + 1) = interface m := by
  have key : ∀ ms : List String, includeTimes ms (n + 1) = includeTimes ms 1 := by
    intro ms
    unfold includeTimes preprocess
    rw [ppRun_replicate_succ ms n, show (1 : Nat) = 0 + 1 from rfl, ppRun_replicate_succ ms 0]
  exact ⟨key predefined, fun m => key m.predefined⟩

end GitVersion
